import Mathlib

/-!
Shallow embedding of `wyoming_porcupine3/__main__.py` (wake-word server).

Conventions of the embedding:
* Python `bytes` become `List Nat` (each element a byte value).
* The external engine instance (`pvporcupine.Porcupine`) is modelled by a
  `Porcupine` record carrying an instance identity `id` (Python object
  identity, used by the pool-reuse claims) and its `frame_length`.  The
  engine's acoustic behaviour `process` is supplied as a parameter
  `proc : Nat → List Int → Int` mapping an instance id and an unpacked
  frame to the keyword index (negative = no match), matching the
  black-box treatment of the engine in the design.
* `pvporcupine.create` (the external factory) is modelled as returning a
  fresh instance: the pool state carries `nextId`, the id the factory
  hands out next; `fl` is the `frame_length` the created engine reports.
* Python float sensitivities become `ℚ`; the code only ever compares
  them for equality (`d.sensitivity == sensitivity`).
* Exceptions are modelled by `Except`, with the error value carrying the
  session/pool state as it stands when the exception escapes (Python
  mutates `self` in place, so partial mutations survive a raise).
* The Wyoming transport (external collaborator): each event carries one
  `type` string; `X.is_type(t)` is equality with `X`'s type constant.
-/

namespace Porcupine3

/-- `DEFAULT_KEYWORD = "porcupine"` (line 25). -/
def DEFAULT_KEYWORD : String := "porcupine"

/-- Single porcupine keyword (lines 28-33). -/
structure Keyword where
  language : String
  name : String
deriving DecidableEq, Repr

/-- Model of one `pvporcupine.Porcupine` engine instance: `id` is Python
object identity, `frame_length` the fixed frame size it reports. -/
structure Porcupine where
  id : Nat
  frame_length : Nat
deriving DecidableEq, Repr

/-- `Detector` dataclass (lines 36-39). -/
structure Detector where
  porcupine : Porcupine
  sensitivity : ℚ
deriving DecidableEq, Repr

/-- Look up a key in an association list (Python `dict.get`). -/
def alistGet {α : Type} (m : List (String × α)) (k : String) : Option α :=
  match m with
  | [] => none
  | (k', v) :: rest => if k' = k then some v else alistGet rest k

/-- Set a key in an association list, replacing the first occurrence or
appending at the end (Python `dict` insertion-order update). -/
def alistSet {α : Type} (m : List (String × α)) (k : String) (v : α) :
    List (String × α) :=
  match m with
  | [] => [(k, v)]
  | (k', v') :: rest =>
      if k' = k then (k', v) :: rest else (k', v') :: alistSet rest k v

/-- `State` (lines 42-51): catalog of keywords plus the idle-detector
cache.  `nextId` models the external factory's next fresh instance. -/
structure PoolState where
  keywords : List (String × Keyword)
  detector_cache : List (String × List Detector)
  nextId : Nat
deriving DecidableEq, Repr

/-- `next((d for d in detectors if d.sensitivity == sensitivity), None)`
followed by `detectors.remove(detector)` (lines 61-66): find the first
detector with the requested sensitivity and remove it from the list. -/
def removeFirstSens (s : ℚ) : List Detector → Option (Detector × List Detector)
  | [] => none
  | d :: ds =>
      if d.sensitivity = s then some (d, ds)
      else match removeFirstSens s ds with
        | some (d', ds') => some (d', d :: ds')
        | none => none

/-- `State.get_porcupine` (lines 53-84).  Unknown keyword raises
`ValueError(f"No keyword {keyword_name}")`; otherwise the idle cache is
scanned for a sensitivity match (reuse path, removing the hit), else a
fresh engine is created via the factory (`fl` = its frame length). -/
def get_porcupine (fl : Nat) (st : PoolState) (keyword_name : String)
    (sensitivity : ℚ) : Except String (Detector × PoolState) :=
  match alistGet st.keywords keyword_name with
  | none => .error ("No keyword " ++ keyword_name)
  | some _ =>
      let detectors := (alistGet st.detector_cache keyword_name).getD []
      match removeFirstSens sensitivity detectors with
      | some (d, ds) =>
          .ok (d, { st with detector_cache := alistSet st.detector_cache keyword_name ds })
      | none =>
          .ok (⟨⟨st.nextId, fl⟩, sensitivity⟩, { st with nextId := st.nextId + 1 })

/-- The check-in block of `_load_keyword` (lines 266-269):
`detectors = cache.setdefault(name, []); detectors.append(detector)`. -/
def checkinDetector (st : PoolState) (keyword_name : String) (d : Detector) :
    PoolState :=
  let detectors := (alistGet st.detector_cache keyword_name).getD []
  { st with detector_cache := alistSet st.detector_cache keyword_name (detectors ++ [d]) }

/-- Inbound Wyoming protocol events the handler consumes (§6 of the
design; wyoming library, external collaborator).  One delivery is one
event; an audio chunk carries raw bytes and a timestamp. -/
inductive Event where
  | describe
  | detect (names : List String)
  | audioStart
  | audioChunk (audio : List Nat) (timestamp : Int)
  | audioStop
deriving DecidableEq, Repr

/-- The wire `type` string of an event (wyoming event model: each event
has exactly one type string). -/
def Event.type : Event → String
  | .describe => "describe"
  | .detect _ => "detect"
  | .audioStart => "audio-start"
  | .audioChunk _ _ => "audio-chunk"
  | .audioStop => "audio-stop"

/-- wyoming `Describe.is_type`. -/
def Describe.is_type (t : String) : Bool := t == "describe"

/-- wyoming `Detect.is_type`. -/
def Detect.is_type (t : String) : Bool := t == "detect"

/-- wyoming `AudioStart.is_type`. -/
def AudioStart.is_type (t : String) : Bool := t == "audio-start"

/-- wyoming `AudioChunk.is_type`. -/
def AudioChunk.is_type (t : String) : Bool := t == "audio-chunk"

/-- wyoming `AudioStop.is_type`. -/
def AudioStop.is_type (t : String) : Bool := t == "audio-stop"

/-- Outbound events written by the handler. -/
inductive OutEvent where
  | infoEvent
  | detection (name : String) (timestamp : Int)
  | notDetected
deriving DecidableEq, Repr

/-- Is an outbound event a `Detection`? -/
def OutEvent.isDetection : OutEvent → Bool
  | .detection _ _ => true
  | _ => false

/-- Per-connection mutable state of `Porcupine3EventHandler`
(lines 187-208). -/
structure Session where
  audio_buffer : List Nat
  detected : Bool
  detector : Option Detector
  keyword_name : String
  chunk_format : String
  bytes_per_chunk : Nat
deriving DecidableEq, Repr

/-- `__init__` field values (lines 202-208). -/
def initSession : Session :=
  { audio_buffer := []
    detected := false
    detector := none
    keyword_name := ""
    chunk_format := ""
    bytes_per_chunk := 0 }

/-- `struct.unpack_from(f"{n}h", ...)`: decode bytes as 16-bit signed
little-endian samples (native byte order assumed little-endian). -/
def unpackInt16 : List Nat → List Int
  | a :: b :: rest =>
      (if a + 256 * b < 32768 then (a + 256 * b : Int)
       else (a + 256 * b : Int) - 65536) :: unpackInt16 rest
  | _ => []

/-- Result of the frame-draining `while` loop: events written, frames
fed to the engine (in order, as raw bytes), the audio buffer and the
detected flag as the loop leaves them, and whether the loop exited via
the early `return True`. -/
structure DrainResult where
  outputs : List OutEvent
  frames : List (List Nat)
  buffer : List Nat
  detected : Bool
  earlyReturn : Bool
deriving DecidableEq, Repr

set_option linter.unusedVariables false in
/-- The `while len(self.audio_buffer) >= self.bytes_per_chunk` loop of
`handle_event` (lines 236-254).  `proc` is the engine's `process` for
the active instance; `stopBundled` is the value of
`AudioStop.is_type(event.type)` tested inside the loop; on a match with
`stopBundled` the Python code returns before truncating the buffer.
(When `L = 0` the Python loop would not terminate; the model exits —
no engine reports frame length 0, and claims assume `L > 0`.) -/
def drain (L : Nat) (proc : List Int → Int) (stopBundled : Bool)
    (kname : String) (ts : Int) (buffer : List Nat) (detected : Bool) :
    DrainResult :=
  if h : 0 < L ∧ L ≤ buffer.length then -- h used by the termination argument
    let frame := buffer.take L
    let keyword_index := proc (unpackInt16 frame)
    if 0 ≤ keyword_index then
      if stopBundled then
        ⟨[.detection kname ts], [frame], buffer, true, true⟩
      else
        let r := drain L proc stopBundled kname ts (buffer.drop L) true
        ⟨.detection kname ts :: r.outputs, frame :: r.frames,
          r.buffer, r.detected, r.earlyReturn⟩
    else
      let r := drain L proc stopBundled kname ts (buffer.drop L) detected
      ⟨r.outputs, frame :: r.frames, r.buffer, r.detected, r.earlyReturn⟩
  else
    ⟨[], [], buffer, detected, false⟩
termination_by buffer.length
decreasing_by
  all_goals
    have hd : (List.drop L buffer).length = buffer.length - L :=
      List.length_drop L buffer
    omega

/-- `_load_keyword` (lines 263-281).  A previously active detector is
checked into the pool under the old keyword name and the detector
fields are cleared; then a detector for the new keyword is obtained
from the pool (`sens` is `cli_args.sensitivity`, `fl` the frame length
the factory's engines report).  A `ValueError` from `get_porcupine`
escapes with the partial mutations in place. -/
def loadKeyword (fl : Nat) (sens : ℚ) (s : Session) (p : PoolState)
    (keyword_name : String) :
    Except (String × Session × PoolState) (Session × PoolState) :=
  let sp : Session × PoolState :=
    match s.detector with
    | some d =>
        ({ s with
            detector := none
            keyword_name := ""
            chunk_format := ""
            bytes_per_chunk := 0 },
          checkinDetector p s.keyword_name d)
    | none => (s, p)
  match get_porcupine fl sp.2 keyword_name sens with
  | .error e => .error (e, sp.1, sp.2)
  | .ok (d, p') =>
      .ok ({ sp.1 with
              detector := some d
              keyword_name := keyword_name
              chunk_format := toString d.porcupine.frame_length ++ "h"
              bytes_per_chunk := d.porcupine.frame_length * 2 }, p')

/-- Result of one `handle_event` call: the session and pool afterwards,
the events written, the frames fed to the engine, and the returned
bool (`True` keeps the connection open). -/
structure HandleResult where
  session : Session
  pool : PoolState
  outputs : List OutEvent
  frames : List (List Nat)
  keepOpen : Bool
deriving DecidableEq, Repr

/-- `handle_event` (lines 212-261).  `proc i` is the `process` function
of the engine instance with id `i`; audio chunks are assumed already in
the normalized format (the `AudioChunkConverter` is then the identity).
Exceptions escape with the state as mutated so far. -/
def handleEvent (fl : Nat) (sens : ℚ) (proc : Nat → List Int → Int)
    (s : Session) (p : PoolState) (ev : Event) :
    Except (String × Session × PoolState) HandleResult :=
  if Describe.is_type ev.type then
    .ok ⟨s, p, [.infoEvent], [], true⟩
  else if Detect.is_type ev.type then
    match ev with
    | .detect names =>
        match names with
        | [] => .ok ⟨s, p, [], [], true⟩
        | n :: _ =>
            match loadKeyword fl sens s p n with
            | .error e => .error e
            | .ok (s', p') => .ok ⟨s', p', [], [], true⟩
    | _ => .ok ⟨s, p, [], [], true⟩
  else if AudioStart.is_type ev.type then
    .ok ⟨{ s with detected := false }, p, [], [], true⟩
  else if AudioChunk.is_type ev.type then
    match ev with
    | .audioChunk audio ts =>
        let step1 : Except (String × Session × PoolState) (Session × PoolState) :=
          match s.detector with
          | none => loadKeyword fl sens s p DEFAULT_KEYWORD
          | some _ => .ok (s, p)
        match step1 with
        | .error e => .error e
        | .ok (s1, p1) =>
            match s1.detector with
            | none =>
                -- `assert self.detector is not None`: unreachable after a
                -- successful load.
                .error ("AssertionError", s1, p1)
            | some d =>
                let buffer := s1.audio_buffer ++ audio
                let r := drain s1.bytes_per_chunk (proc d.porcupine.id)
                  (AudioStop.is_type (Event.audioChunk audio ts).type)
                  s1.keyword_name ts buffer s1.detected
                .ok ⟨{ s1 with audio_buffer := r.buffer, detected := r.detected },
                  p1, r.outputs, r.frames, true⟩
    | _ => .ok ⟨s, p, [], [], true⟩
  else if AudioStop.is_type ev.type then
    .ok ⟨s, p, if s.detected then [] else [.notDetected], [], true⟩
  else
    .ok ⟨s, p, [], [], true⟩

/-- Process a list of events in arrival order, accumulating written
events and engine-fed frames. -/
def runEvents (fl : Nat) (sens : ℚ) (proc : Nat → List Int → Int)
    (s : Session) (p : PoolState) :
    List Event → Except (String × Session × PoolState) HandleResult
  | [] => .ok ⟨s, p, [], [], true⟩
  | ev :: evs =>
      match handleEvent fl sens proc s p ev with
      | .error e => .error e
      | .ok r =>
          match runEvents fl sens proc r.session r.pool evs with
          | .error e => .error e
          | .ok r' =>
              .ok ⟨r'.session, r'.pool, r.outputs ++ r'.outputs,
                r.frames ++ r'.frames, r'.keepOpen⟩

/-- Python `kw.startswith(language)`, at the character level. -/
def strStartsWith (s pfx : String) : Bool := pfx.data.isPrefixOf s.data

/-- Python `"_" in kw`, at the character level. -/
def strContainsChar (s : String) (c : Char) : Bool := s.data.contains c

/-- Python `kw.split("_")[0]`: the characters before the first `'_'`. -/
def strFirstSegment (s : String) : String :=
  String.mk (s.data.takeWhile (fun c => c ≠ '_'))

/-- Catalog construction in `main` (lines 118-137): filter the keyword
universe by language prefix, build the name → `Keyword` dict; when
enumerating the universe raises (`universe = none`), fall back to the
single default keyword.  (The `if not keywords` branch only logs.) -/
def buildKeywords (language : String) (keywordUniverse : Option (List String)) :
    List (String × Keyword) :=
  match keywordUniverse with
  | none => alistSet [] DEFAULT_KEYWORD ⟨"en", DEFAULT_KEYWORD⟩
  | some available_keywords =>
      let language_keywords :=
        available_keywords.filter (fun kw => strStartsWith kw language)
      language_keywords.foldl
        (fun acc kw =>
          let kw_name := if strContainsChar kw '_' then strFirstSegment kw else kw
          alistSet acc kw_name ⟨language, kw_name⟩)
        []

/-- The audio payload of an event (empty for non-chunk events). -/
def chunkPayload : Event → List Nat
  | .audioChunk a _ => a
  | _ => []

/-- The session state as left behind by `_load_keyword`, whether it
returned normally or raised (Python mutates `self` in place, so the
state at the moment an exception escapes is observable). -/
def sessionAfterLoad :
    Except (String × Session × PoolState) (Session × PoolState) → Session
  | .ok (s', _) => s'
  | .error (_, s', _) => s'

-- ---------------------------------------------------------------------
-- Helper lemmas
-- ---------------------------------------------------------------------

theorem alistGet_alistSet_self {α : Type} (m : List (String × α)) (k : String)
    (v : α) : alistGet (alistSet m k v) k = some v := by
  induction m with
  | nil => simp [alistSet, alistGet]
  | cons hd tl ih =>
      obtain ⟨k', v'⟩ := hd
      by_cases hk : k' = k
      · simp [alistSet, alistGet, hk]
      · simp [alistSet, alistGet, hk, ih]

theorem removeFirstSens_sens (s : ℚ) (l : List Detector) (d : Detector)
    (l' : List Detector) (h : removeFirstSens s l = some (d, l')) :
    d.sensitivity = s := by
  induction l generalizing d l' with
  | nil => simp [removeFirstSens] at h
  | cons hd tl ih =>
      by_cases hs : hd.sensitivity = s
      · simp only [removeFirstSens, if_pos hs, Option.some.injEq, Prod.mk.injEq] at h
        exact h.1 ▸ hs
      · simp only [removeFirstSens, if_neg hs] at h
        rcases hrec : removeFirstSens s tl with _ | ⟨d', tl'⟩
        · rw [hrec] at h
          exact absurd h (by simp)
        · rw [hrec] at h
          simp only [Option.some.injEq, Prod.mk.injEq] at h
          exact h.1 ▸ ih d' tl' hrec

theorem removeFirstSens_append_not (s : ℚ) (l : List Detector) (d : Detector)
    (hl : ∀ d' ∈ l, d'.sensitivity ≠ s) (hd : d.sensitivity = s) :
    removeFirstSens s (l ++ [d]) = some (d, l) := by
  induction l with
  | nil => simp [removeFirstSens, hd]
  | cons hd' tl ih =>
      have h1 : hd'.sensitivity ≠ s := hl hd' (by simp)
      have h2 : ∀ d' ∈ tl, d'.sensitivity ≠ s := fun d' hmem => hl d' (by simp [hmem])
      simp only [List.cons_append, removeFirstSens, if_neg h1]
      rw [List.append_eq, ih h2]

/-- The total length of a flatten whose pieces all have length `L`. -/
theorem flatten_length_const (L : Nat) (fs : List (List Nat))
    (h : ∀ f ∈ fs, f.length = L) : fs.flatten.length = fs.length * L := by
  induction fs with
  | nil => simp
  | cons f tl ih =>
      have hf : f.length = L := h f (by simp)
      have htl : ∀ g ∈ tl, g.length = L := fun g hg => h g (by simp [hg])
      simp [List.flatten_cons, hf, ih htl, Nat.succ_mul, Nat.add_comm]

theorem drain_exit (L : Nat) (proc : List Int → Int) (sb : Bool) (kname : String)
    (ts : Int) (buffer : List Nat) (det : Bool)
    (hguard : ¬(0 < L ∧ L ≤ buffer.length)) :
    drain L proc sb kname ts buffer det = ⟨[], [], buffer, det, false⟩ := by
  rw [drain.eq_def, dif_neg hguard]

theorem drain_match_cont (L : Nat) (proc : List Int → Int) (kname : String)
    (ts : Int) (buffer : List Nat) (det : Bool)
    (hguard : 0 < L ∧ L ≤ buffer.length)
    (hki : 0 ≤ proc (unpackInt16 (buffer.take L))) :
    drain L proc false kname ts buffer det =
      { outputs := .detection kname ts ::
          (drain L proc false kname ts (buffer.drop L) true).outputs
        frames := buffer.take L ::
          (drain L proc false kname ts (buffer.drop L) true).frames
        buffer := (drain L proc false kname ts (buffer.drop L) true).buffer
        detected := (drain L proc false kname ts (buffer.drop L) true).detected
        earlyReturn := (drain L proc false kname ts (buffer.drop L) true).earlyReturn } := by
  conv_lhs => rw [drain.eq_def]
  simp only [dif_pos hguard, if_pos hki]
  simp

theorem drain_nomatch (L : Nat) (proc : List Int → Int) (sb : Bool) (kname : String)
    (ts : Int) (buffer : List Nat) (det : Bool)
    (hguard : 0 < L ∧ L ≤ buffer.length)
    (hki : ¬ 0 ≤ proc (unpackInt16 (buffer.take L))) :
    drain L proc sb kname ts buffer det =
      { outputs := (drain L proc sb kname ts (buffer.drop L) det).outputs
        frames := buffer.take L ::
          (drain L proc sb kname ts (buffer.drop L) det).frames
        buffer := (drain L proc sb kname ts (buffer.drop L) det).buffer
        detected := (drain L proc sb kname ts (buffer.drop L) det).detected
        earlyReturn := (drain L proc sb kname ts (buffer.drop L) det).earlyReturn } := by
  conv_lhs => rw [drain.eq_def]
  simp only [dif_pos hguard, if_neg hki]

/-- Specification of one run of the frame loop when the stop-bundled
test is false (the only value `handle_event` ever passes, see
`audioChunk_never_stopBundled`): the loop never returns early, the
frames it fed to the engine concatenate with the leftover buffer to the
original buffer, every frame has length `L`, fewer than `L` bytes
remain, one `Detection` is written per matching frame, and the detected
flag ends up set iff it was set before or some frame matched. -/
def DrainSpec (L : Nat) (proc : List Int → Int) (kname : String) (ts : Int)
    (buffer : List Nat) (det : Bool) (r : DrainResult) : Prop :=
  r.earlyReturn = false ∧
  r.frames.flatten ++ r.buffer = buffer ∧
  (∀ f ∈ r.frames, f.length = L) ∧
  (0 < L → r.buffer.length < L) ∧
  r.outputs = r.frames.filterMap
    (fun f => if 0 ≤ proc (unpackInt16 f) then some (OutEvent.detection kname ts) else none) ∧
  r.detected = (det || !r.outputs.isEmpty)

theorem drain_spec (L : Nat) (proc : List Int → Int) (kname : String) (ts : Int)
    (buffer : List Nat) (det : Bool) :
    DrainSpec L proc kname ts buffer det (drain L proc false kname ts buffer det) := by
  by_cases hguard : 0 < L ∧ L ≤ buffer.length
  · by_cases hki : 0 ≤ proc (unpackInt16 (buffer.take L))
    · have ih := drain_spec L proc kname ts (buffer.drop L) true
      rw [drain_match_cont L proc kname ts buffer det hguard hki]
      obtain ⟨he, hfl, hlen, hbuf, houts, hdet⟩ := ih
      refine ⟨he, ?_, ?_, hbuf, ?_, ?_⟩
      · simpa [List.append_assoc] using
          congrArg (fun l => List.take L buffer ++ l) hfl
      · intro f hf
        rcases List.mem_cons.mp hf with hf | hf
        · subst hf
          simpa [List.length_take] using hguard.2
        · exact hlen f hf
      · simp [houts, hki]
      · simp [hdet]
    · have ih := drain_spec L proc kname ts (buffer.drop L) det
      rw [drain_nomatch L proc false kname ts buffer det hguard hki]
      obtain ⟨he, hfl, hlen, hbuf, houts, hdet⟩ := ih
      refine ⟨he, ?_, ?_, hbuf, ?_, hdet⟩
      · simpa [List.append_assoc] using
          congrArg (fun l => List.take L buffer ++ l) hfl
      · intro f hf
        rcases List.mem_cons.mp hf with hf | hf
        · subst hf
          simpa [List.length_take] using hguard.2
        · exact hlen f hf
      · simp [houts, hki]
  · rw [drain_exit L proc false kname ts buffer det hguard]
    refine ⟨rfl, rfl, by simp, ?_, rfl, by simp⟩
    intro hL
    simp only [not_and, not_le] at hguard
    exact hguard hL
termination_by buffer.length
decreasing_by
  all_goals
    have hd : (List.drop L buffer).length = buffer.length - L :=
      List.length_drop L buffer
    omega

/-- Inside the audio-chunk branch of `handle_event` the inner
`AudioStop.is_type(event.type)` test (line 251) is evaluated on the
very event that entered the branch, whose type is `"audio-chunk"`; it
is therefore always false — a delivery is one event with one type. -/
theorem audioChunk_never_stopBundled (audio : List Nat) (ts : Int) :
    AudioStop.is_type (Event.audioChunk audio ts).type = false := rfl


theorem loadKeyword_state (fl : Nat) (sens : ℚ) (s : Session) (p : PoolState)
    (k : String) :
    (sessionAfterLoad (loadKeyword fl sens s p k)).audio_buffer = s.audio_buffer ∧
    (sessionAfterLoad (loadKeyword fl sens s p k)).detected = s.detected := by
  unfold loadKeyword sessionAfterLoad
  cases s.detector <;>
    [skip; skip] <;>
    (dsimp only []) <;>
    rcases hget : get_porcupine fl _ k sens with e | ⟨d, p2⟩ <;>
    simp [hget]

theorem loadKeyword_ok_detector (fl : Nat) (sens : ℚ) (s : Session) (p : PoolState)
    (k : String) (s' : Session) (p' : PoolState)
    (h : loadKeyword fl sens s p k = .ok (s', p')) :
    ∃ d : Detector, s'.detector = some d := by
  unfold loadKeyword at h
  cases s.detector <;>
    dsimp only [] at h <;>
    rcases hget : get_porcupine fl _ k sens with e | ⟨d, p2⟩ <;>
    rw [hget] at h <;>
    simp at h
  · exact ⟨d, by simp [← h.1]⟩
  · exact ⟨d, by simp [← h.1]⟩


theorem handleEvent_chunk_some (fl : Nat) (sens : ℚ) (proc : Nat → List Int → Int)
    (s : Session) (p : PoolState) (d : Detector) (audio : List Nat) (ts : Int)
    (hd : s.detector = some d) :
    handleEvent fl sens proc s p (.audioChunk audio ts) =
      .ok ⟨{ s with
              audio_buffer := (drain s.bytes_per_chunk (proc d.porcupine.id) false
                s.keyword_name ts (s.audio_buffer ++ audio) s.detected).buffer
              detected := (drain s.bytes_per_chunk (proc d.porcupine.id) false
                s.keyword_name ts (s.audio_buffer ++ audio) s.detected).detected },
            p,
            (drain s.bytes_per_chunk (proc d.porcupine.id) false
              s.keyword_name ts (s.audio_buffer ++ audio) s.detected).outputs,
            (drain s.bytes_per_chunk (proc d.porcupine.id) false
              s.keyword_name ts (s.audio_buffer ++ audio) s.detected).frames,
            true⟩ := by
  unfold handleEvent
  simp [Event.type, Describe.is_type, Detect.is_type, AudioStart.is_type,
    AudioChunk.is_type, AudioStop.is_type, hd]


theorem handleEvent_chunk_none (fl : Nat) (sens : ℚ) (proc : Nat → List Int → Int)
    (s : Session) (p : PoolState) (audio : List Nat) (ts : Int)
    (s1 : Session) (p1 : PoolState) (d : Detector)
    (hd : s.detector = none)
    (hload : loadKeyword fl sens s p DEFAULT_KEYWORD = .ok (s1, p1))
    (hd1 : s1.detector = some d) :
    handleEvent fl sens proc s p (.audioChunk audio ts) =
      .ok ⟨{ s1 with
              audio_buffer := (drain s1.bytes_per_chunk (proc d.porcupine.id) false
                s1.keyword_name ts (s1.audio_buffer ++ audio) s1.detected).buffer
              detected := (drain s1.bytes_per_chunk (proc d.porcupine.id) false
                s1.keyword_name ts (s1.audio_buffer ++ audio) s1.detected).detected },
            p1,
            (drain s1.bytes_per_chunk (proc d.porcupine.id) false
              s1.keyword_name ts (s1.audio_buffer ++ audio) s1.detected).outputs,
            (drain s1.bytes_per_chunk (proc d.porcupine.id) false
              s1.keyword_name ts (s1.audio_buffer ++ audio) s1.detected).frames,
            true⟩ := by
  unfold handleEvent
  simp [Event.type, Describe.is_type, Detect.is_type, AudioStart.is_type,
    AudioChunk.is_type, AudioStop.is_type, hd, hload, hd1]

theorem handleEvent_chunk_outputs (fl : Nat) (sens : ℚ) (proc : Nat → List Int → Int)
    (s : Session) (p : PoolState) (audio : List Nat) (ts : Int) (r : HandleResult)
    (hok : handleEvent fl sens proc s p (.audioChunk audio ts) = .ok r) :
    (∀ o ∈ r.outputs, o.isDetection = true) ∧
    r.session.detected = (s.detected || !r.outputs.isEmpty) := by
  rcases hd : s.detector with _ | d
  · rcases hload : loadKeyword fl sens s p DEFAULT_KEYWORD with e | ⟨s1, p1⟩
    · unfold handleEvent at hok
      simp [Event.type, Describe.is_type, Detect.is_type, AudioStart.is_type,
        AudioChunk.is_type, AudioStop.is_type, hd, hload] at hok
    · obtain ⟨d, hd1⟩ := loadKeyword_ok_detector fl sens s p DEFAULT_KEYWORD s1 p1 hload
      rw [handleEvent_chunk_none fl sens proc s p audio ts s1 p1 d hd hload hd1] at hok
      obtain ⟨-, -, -, -, houts, hdet⟩ := drain_spec s1.bytes_per_chunk
        (proc d.porcupine.id) s1.keyword_name ts (s1.audio_buffer ++ audio) s1.detected
      have hdet1 : s1.detected = s.detected := by
        have hls := (loadKeyword_state fl sens s p DEFAULT_KEYWORD).2
        rw [hload] at hls
        exact hls
      cases hok
      constructor
      · intro o ho
        rw [houts] at ho
        obtain ⟨f, -, hf⟩ := List.mem_filterMap.mp ho
        by_cases hc : 0 ≤ proc d.porcupine.id (unpackInt16 f)
        · rw [if_pos hc] at hf
          cases hf
          rfl
        · rw [if_neg hc] at hf
          cases hf
      · simpa [hdet1] using hdet
  · rw [handleEvent_chunk_some fl sens proc s p d audio ts hd] at hok
    obtain ⟨-, -, -, -, houts, hdet⟩ := drain_spec s.bytes_per_chunk
      (proc d.porcupine.id) s.keyword_name ts (s.audio_buffer ++ audio) s.detected
    cases hok
    constructor
    · intro o ho
      rw [houts] at ho
      obtain ⟨f, -, hf⟩ := List.mem_filterMap.mp ho
      by_cases hc : 0 ≤ proc d.porcupine.id (unpackInt16 f)
      · rw [if_pos hc] at hf
        cases hf
        rfl
      · rw [if_neg hc] at hf
        cases hf
    · exact hdet


theorem runEvents_append (fl : Nat) (sens : ℚ) (proc : Nat → List Int → Int)
    (l1 l2 : List Event) (s : Session) (p : PoolState) :
    runEvents fl sens proc s p (l1 ++ l2) =
      match runEvents fl sens proc s p l1 with
      | .error e => .error e
      | .ok r =>
          match runEvents fl sens proc r.session r.pool l2 with
          | .error e => .error e
          | .ok r' => .ok ⟨r'.session, r'.pool, r.outputs ++ r'.outputs,
              r.frames ++ r'.frames, r'.keepOpen⟩ := by
  induction l1 generalizing s p with
  | nil =>
      simp only [List.nil_append, runEvents]
      rcases runEvents fl sens proc s p l2 with e | r
      · rfl
      · rfl
  | cons ev tl ih =>
      simp only [List.cons_append, runEvents]
      rcases hh : handleEvent fl sens proc s p ev with e | r
      · simp only [hh]
      · simp only [hh, List.append_eq, ih r.session r.pool]
        rcases h1 : runEvents fl sens proc r.session r.pool tl with e | r1
        · simp only [h1]
        · simp only [h1]
          rcases h2 : runEvents fl sens proc r1.session r1.pool l2 with e | r2
          · simp only [h2]
          · simp only [h2]
            simp

/-- A run over audio-chunk deliveries only: every written event is a
`Detection`, and the detected flag ends set iff it started set or some
event was written. -/
theorem runChunks_outputs (fl : Nat) (sens : ℚ) (proc : Nat → List Int → Int)
    (cs : List Event) (s : Session) (p : PoolState) (r : HandleResult)
    (hcs : ∀ e ∈ cs, ∃ a t, e = Event.audioChunk a t)
    (hok : runEvents fl sens proc s p cs = .ok r) :
    (∀ o ∈ r.outputs, o.isDetection = true) ∧
    r.session.detected = (s.detected || !r.outputs.isEmpty) := by
  induction cs generalizing s p r with
  | nil =>
      simp only [runEvents] at hok
      cases hok
      simp
  | cons ev tl ih =>
      obtain ⟨a, t, hev⟩ := hcs ev (List.mem_cons_self ev tl)
      subst hev
      simp only [runEvents] at hok
      rcases hh : handleEvent fl sens proc s p (Event.audioChunk a t) with e | r1
      · simp only [hh] at hok
        cases hok
      · simp only [hh] at hok
        rcases hrest : runEvents fl sens proc r1.session r1.pool tl with e | r2
        · simp only [hrest] at hok
          cases hok
        · simp only [hrest, Except.ok.injEq] at hok
          subst hok
          have h1 := handleEvent_chunk_outputs fl sens proc s p a t r1 hh
          have h2 := ih r1.session r1.pool r2
            (fun e he => hcs e (List.mem_cons_of_mem _ he)) hrest
          dsimp only
          constructor
          · intro o ho
            rcases List.mem_append.mp ho with ho | ho
            · exact h1.1 o ho
            · exact h2.1 o ho
          · rw [h2.2, h1.2]
            cases r1.outputs <;> simp [Bool.or_assoc]


/-- A run over audio-chunk deliveries with an active detector: the
detector and frame length are unchanged, the frames fed to the engine
reassemble (with the leftover buffer) to the original buffer followed
by all delivered payload bytes, every frame is one frame length long,
and fewer than a frame length of bytes remain. -/
theorem runChunks_frames (fl : Nat) (sens : ℚ) (proc : Nat → List Int → Int)
    (cs : List Event) (s : Session) (p : PoolState) (d : Detector) (r : HandleResult)
    (hcs : ∀ e ∈ cs, ∃ a t, e = Event.audioChunk a t)
    (hd : s.detector = some d)
    (hinit : 0 < s.bytes_per_chunk → s.audio_buffer.length < s.bytes_per_chunk)
    (hok : runEvents fl sens proc s p cs = .ok r) :
    r.session.detector = some d ∧
    r.session.bytes_per_chunk = s.bytes_per_chunk ∧
    r.frames.flatten ++ r.session.audio_buffer =
      s.audio_buffer ++ (cs.map chunkPayload).flatten ∧
    (∀ f ∈ r.frames, f.length = s.bytes_per_chunk) ∧
    (0 < s.bytes_per_chunk → r.session.audio_buffer.length < s.bytes_per_chunk) := by
  induction cs generalizing s p r with
  | nil =>
      simp only [runEvents] at hok
      cases hok
      exact ⟨hd, rfl, by simp, by simp, hinit⟩
  | cons ev tl ih =>
      obtain ⟨a, t, hev⟩ := hcs ev (List.mem_cons_self ev tl)
      subst hev
      simp only [runEvents] at hok
      rw [handleEvent_chunk_some fl sens proc s p d a t hd] at hok
      dsimp only at hok
      obtain ⟨-, hfl, hlen, hbuf, -, -⟩ := drain_spec s.bytes_per_chunk
        (proc d.porcupine.id) s.keyword_name t (s.audio_buffer ++ a) s.detected
      set D := drain s.bytes_per_chunk (proc d.porcupine.id) false
        s.keyword_name t (s.audio_buffer ++ a) s.detected with hD
      rcases hrest : runEvents fl sens proc
          { s with audio_buffer := D.buffer, detected := D.detected } p tl
          with e | r2
      · rw [hrest] at hok
        cases hok
      · rw [hrest] at hok
        simp only [Except.ok.injEq] at hok
        subst hok
        have ihr := ih { s with audio_buffer := D.buffer, detected := D.detected }
          p r2 (fun e he => hcs e (List.mem_cons_of_mem _ he)) hd hbuf hrest
        obtain ⟨ihdet, ihbpc, ihflat, ihlen, ihrem⟩ := ihr
        refine ⟨ihdet, ihbpc, ?_, ?_, ihrem⟩
        · dsimp only
          rw [List.map_cons, List.flatten_cons, List.flatten_append,
            List.append_assoc, ihflat]
          dsimp only
          rw [← List.append_assoc, hfl]
          rw [List.append_assoc]
          rfl
        · intro f hf
          dsimp only at hf
          rcases List.mem_append.mp hf with hf | hf
          · exact hlen f hf
          · exact ihlen f hf

theorem handleEvent_audioStart (fl : Nat) (sens : ℚ) (proc : Nat → List Int → Int)
    (s : Session) (p : PoolState) :
    handleEvent fl sens proc s p .audioStart =
      .ok ⟨{ s with detected := false }, p, [], [], true⟩ := rfl

theorem handleEvent_audioStop (fl : Nat) (sens : ℚ) (proc : Nat → List Int → Int)
    (s : Session) (p : PoolState) :
    handleEvent fl sens proc s p .audioStop =
      .ok ⟨s, p, if s.detected then [] else [.notDetected], [], true⟩ := rfl

-- ---------------------------------------------------------------------
-- Claim theorems
-- ---------------------------------------------------------------------

/-- C9: the utterance-start signal changes only the detected flag,
clearing it; the audio buffer and every other session field are
untouched, nothing is written, and the connection stays open — so bytes
buffered before the utterance start are consumed as the beginning of
the next utterance's first frame. -/
theorem c9_audioStart_clears_only_detected (fl : Nat) (sens : ℚ)
    (proc : Nat → List Int → Int) (s : Session) (p : PoolState) :
    handleEvent fl sens proc s p .audioStart =
      .ok ⟨{ s with detected := false }, p, [], [], true⟩ := rfl

/-- C10: a keyword-selection request with an empty list of names is a
no-op: no keyword is loaded, the session state is returned unchanged,
no event is written, and the connection stays open. -/
theorem c10_empty_detect_noop (fl : Nat) (sens : ℚ)
    (proc : Nat → List Int → Int) (s : Session) (p : PoolState) :
    handleEvent fl sens proc s p (.detect []) =
      .ok ⟨s, p, [], [], true⟩ := rfl

/-- C2 counterexample: with three bytes buffered for active keyword
"hello", loading "world" succeeds and leaves the backlog `[1, 2, 3]`
rather than resetting it to empty, and the next chunk's frame fed to
the new keyword's engine begins with those pre-switch bytes. -/
theorem c2_counterexample :
    (sessionAfterLoad (loadKeyword 2 (1/2)
        ⟨[1, 2, 3], false, some ⟨⟨0, 2⟩, 1/2⟩, "hello", "2h", 4⟩
        ⟨[("world", ⟨"en", "world"⟩)], [], 1⟩ "world")).audio_buffer = [1, 2, 3] ∧
    (runEvents 2 (1/2) (fun _ _ => -1)
        ⟨[1, 2, 3], false, some ⟨⟨0, 2⟩, 1/2⟩, "hello", "2h", 4⟩
        ⟨[("world", ⟨"en", "world"⟩)], [], 1⟩
        [.detect ["world"], .audioChunk [4] 9]).map (fun r => r.frames) =
      .ok [[1, 2, 3, 4]] := by
  constructor
  · rfl
  · simp [runEvents, handleEvent, loadKeyword, get_porcupine, checkinDetector,
      alistGet, alistSet, removeFirstSens, drain, unpackInt16, Event.type,
      Describe.is_type, Detect.is_type, AudioStart.is_type, AudioChunk.is_type,
      AudioStop.is_type, Except.map]

/-- C2 (amended): `_load_keyword` never touches the accumulated audio
buffer: whether the load succeeds or raises, the backlog is carried
over unchanged and is later interpreted under the newly selected
keyword's frame length. -/
theorem c2_load_preserves_buffer (fl : Nat) (sens : ℚ) (s : Session)
    (p : PoolState) (k : String) :
    (sessionAfterLoad (loadKeyword fl sens s p k)).audio_buffer = s.audio_buffer :=
  (loadKeyword_state fl sens s p k).1

/-- C7 counterexample: with keyword universe
`["porcupine", "grasshopper"]` and configured language `"fr"`, zero
keywords match, and the catalog comes out empty — not the claimed
one-default-keyword fallback. -/
theorem c7_counterexample :
    buildKeywords "fr" (some ["porcupine", "grasshopper"]) = [] ∧
    ([] : List (String × Keyword)) ≠
      [(DEFAULT_KEYWORD, ⟨"en", DEFAULT_KEYWORD⟩)] := by
  constructor
  · decide
  · decide

/-- C7 (amended): when zero keywords of the universe match the
configured language the catalog is built empty (only a warning is
logged); the single-default-keyword fallback happens only when
enumerating the keyword universe raises. -/
theorem c7_fallback_only_on_enumeration_failure (lang : String)
    (univ : List String)
    (hmatch : univ.filter (fun kw => strStartsWith kw lang) = []) :
    buildKeywords lang (some univ) = [] ∧
    buildKeywords lang none = [(DEFAULT_KEYWORD, ⟨"en", DEFAULT_KEYWORD⟩)] := by
  constructor
  · simp [buildKeywords, hmatch]
  · rfl

/-- C7 witness: the amended statement applied at language `"fr"` and
universe `["porcupine", "grasshopper"]`. -/
theorem c7_fallback_only_on_enumeration_failure_witness :
    buildKeywords "fr" (some ["porcupine", "grasshopper"]) = [] ∧
    buildKeywords "fr" none = [(DEFAULT_KEYWORD, ⟨"en", DEFAULT_KEYWORD⟩)] :=
  c7_fallback_only_on_enumeration_failure "fr" ["porcupine", "grasshopper"]
    (by decide)

/-- C4 counterexample: a load of the unknown keyword `"nope"` from a
session whose active detector is loaded for `"hello"` raises, and the
session is NOT left in its prior state: the detector field has been
cleared (the handle was checked into the pool) before the failure. -/
theorem c4_counterexample :
    ¬ (loadKeyword 2 (1/2)
        ⟨[9], false, some ⟨⟨0, 2⟩, 1/2⟩, "hello", "2h", 4⟩
        ⟨[("hello", ⟨"en", "hello"⟩)], [], 1⟩ "nope").isOk ∧
    sessionAfterLoad (loadKeyword 2 (1/2)
        ⟨[9], false, some ⟨⟨0, 2⟩, 1/2⟩, "hello", "2h", 4⟩
        ⟨[("hello", ⟨"en", "hello"⟩)], [], 1⟩ "nope") ≠
      ⟨[9], false, some ⟨⟨0, 2⟩, 1/2⟩, "hello", "2h", 4⟩ := by
  constructor
  · decide
  · decide

/-- C4 (amended): loading a keyword absent from the catalog fails with
the `No keyword` error and the exception escapes `_load_keyword`
(nothing in the handler catches it); the session is not restored to its
prior state: if a detector was active it has been checked into the pool
and the detector fields cleared (audio buffer and detected flag are
kept); if no detector was active the session is unchanged. -/
theorem c4_unknown_keyword_fails (fl : Nat) (sens : ℚ) (s : Session)
    (p : PoolState) (k : String) (hk : alistGet p.keywords k = none) :
    (s.detector = none →
      loadKeyword fl sens s p k = .error ("No keyword " ++ k, s, p)) ∧
    (∀ d : Detector, s.detector = some d →
      loadKeyword fl sens s p k =
        .error ("No keyword " ++ k,
          { s with
              detector := none
              keyword_name := ""
              chunk_format := ""
              bytes_per_chunk := 0 },
          checkinDetector p s.keyword_name d)) := by
  constructor
  · intro hdet
    simp [loadKeyword, hdet, get_porcupine, checkinDetector, hk]
  · intro d hdet
    simp [loadKeyword, hdet, get_porcupine, checkinDetector, hk]

/-- C4 witness: the amended statement applied with an active "hello"
detector and the unknown keyword `"nope"`. -/
theorem c4_unknown_keyword_fails_witness :
    loadKeyword 2 (1/2)
        ⟨[9], false, some ⟨⟨0, 2⟩, 1/2⟩, "hello", "2h", 4⟩
        ⟨[("hello", ⟨"en", "hello"⟩)], [], 1⟩ "nope" =
      .error ("No keyword " ++ "nope",
        ⟨[9], false, none, "", "", 0⟩,
        checkinDetector ⟨[("hello", ⟨"en", "hello"⟩)], [], 1⟩ "hello"
          ⟨⟨0, 2⟩, 1/2⟩) :=
  (c4_unknown_keyword_fails 2 (1/2)
      ⟨[9], false, some ⟨⟨0, 2⟩, 1/2⟩, "hello", "2h", 4⟩
      ⟨[("hello", ⟨"en", "hello"⟩)], [], 1⟩ "nope" (by decide)).2
    ⟨⟨0, 2⟩, 1/2⟩ rfl

/-- C6 counterexample: with an idle "hello" handle (instance 0) of
sensitivity 1/2 already in the pool, checking in a second handle
(instance 1) for the identical pair and immediately checking out
("hello", 1/2) returns instance 0, not the handle just checked in. -/
theorem c6_counterexample :
    (get_porcupine 2 (checkinDetector
        ⟨[("hello", ⟨"en", "hello"⟩)], [("hello", [⟨⟨0, 2⟩, 1/2⟩])], 5⟩
        "hello" ⟨⟨1, 2⟩, 1/2⟩) "hello" (1/2)).map Prod.fst =
      .ok ⟨⟨0, 2⟩, 1/2⟩ ∧
    (⟨⟨0, 2⟩, 1/2⟩ : Detector) ≠ ⟨⟨1, 2⟩, 1/2⟩ := by
  constructor
  · norm_num [get_porcupine, checkinDetector, alistGet, alistSet,
      removeFirstSens, Except.map]
  · decide

/-- C6 (amended): when no idle handle for (K, S) precedes it, checking
in a handle for (K, S) and immediately checking out (K, S) returns that
same handle with no new engine construction (the factory counter is
untouched); and in general a checkout for (K, S2) only ever returns a
handle whose sensitivity is exactly S2 — an idle handle of a different
sensitivity never satisfies it. -/
theorem c6_pool_reuse (fl : Nat) (p : PoolState) (K : String) (S : ℚ)
    (d : Detector)
    (hcat : (alistGet p.keywords K).isSome = true)
    (hsens : d.sensitivity = S)
    (hidle : ∀ d' ∈ (alistGet p.detector_cache K).getD [], d'.sensitivity ≠ S) :
    (get_porcupine fl (checkinDetector p K d) K S).map Prod.fst = .ok d ∧
    (get_porcupine fl (checkinDetector p K d) K S).map (fun x => x.2.nextId) =
      .ok p.nextId ∧
    (∀ (S2 : ℚ) (d2 : Detector) (p2 : PoolState),
      get_porcupine fl p K S2 = .ok (d2, p2) → d2.sensitivity = S2) := by
  rcases hkw : alistGet p.keywords K with _ | kw
  · rw [hkw] at hcat
    simp at hcat
  · have hget : alistGet (checkinDetector p K d).detector_cache K =
        some ((alistGet p.detector_cache K).getD [] ++ [d]) := by
      unfold checkinDetector
      exact alistGet_alistSet_self p.detector_cache K _
    have hrm : removeFirstSens S ((alistGet p.detector_cache K).getD [] ++ [d]) =
        some (d, (alistGet p.detector_cache K).getD []) :=
      removeFirstSens_append_not S _ d hidle hsens
    refine ⟨?_, ?_, ?_⟩
    · unfold get_porcupine
      rw [show alistGet (checkinDetector p K d).keywords K = some kw from hkw,
        hget]
      simp [hrm, Except.map]
    · unfold get_porcupine
      rw [show alistGet (checkinDetector p K d).keywords K = some kw from hkw,
        hget]
      simp [hrm, checkinDetector, Except.map]
    · intro S2 d2 p2 h
      simp only [get_porcupine, hkw] at h
      rcases hrm2 : removeFirstSens S2 ((alistGet p.detector_cache K).getD [])
          with _ | ⟨d', ds'⟩
      · simp only [hrm2, Except.ok.injEq, Prod.mk.injEq] at h
        rw [← h.1]
      · simp only [hrm2, Except.ok.injEq, Prod.mk.injEq] at h
        rw [← h.1]
        exact removeFirstSens_sens S2 _ d' ds' hrm2

/-- C6 witness: the amended statement applied to a pool with no idle
"hello" handle; the checked-in instance 7 comes straight back and the
factory counter 5 is untouched. -/
theorem c6_pool_reuse_witness :
    (get_porcupine 2 (checkinDetector ⟨[("hello", ⟨"en", "hello"⟩)], [], 5⟩
        "hello" ⟨⟨7, 2⟩, 1/2⟩) "hello" (1/2)).map Prod.fst =
      .ok ⟨⟨7, 2⟩, 1/2⟩ :=
  (c6_pool_reuse 2 ⟨[("hello", ⟨"en", "hello"⟩)], [], 5⟩ "hello" (1/2)
    ⟨⟨7, 2⟩, 1/2⟩ (by decide) rfl (by decide)).1

/-- C3 counterexample: one utterance whose single delivery holds two
complete frames, with an engine double that reports a match on every
frame: the handler writes TWO detection events in the one utterance —
detections after the first match are not suppressed. -/
theorem c3_counterexample :
    (runEvents 2 (1/2) (fun _ _ => 0)
        ⟨[], false, some ⟨⟨0, 2⟩, 1/2⟩, "hello", "2h", 4⟩
        ⟨[("hello", ⟨"en", "hello"⟩)], [], 1⟩
        [.audioStart, .audioChunk [1, 2, 3, 4, 5, 6, 7, 8] 5, .audioStop]).map
      (fun r => r.outputs.filter OutEvent.isDetection) =
      .ok [.detection "hello" 5, .detection "hello" 5] := by
  simp [runEvents, handleEvent, drain, unpackInt16, Event.type,
    Describe.is_type, Detect.is_type, AudioStart.is_type, AudioChunk.is_type,
    AudioStop.is_type, OutEvent.isDetection, Except.map]

/-- C3 (amended): the loop writes one detection event per frame the
engine reports as a match — the detected flag is set but never
consulted inside the loop, so matches after the first in an utterance
each produce their own detection event (the flag only suppresses the
utterance-end no-detection event). -/
theorem c3_detection_per_matching_frame (fl : Nat) (sens : ℚ)
    (proc : Nat → List Int → Int) (s : Session) (p : PoolState)
    (audio : List Nat) (ts : Int) (d : Detector) (r : HandleResult)
    (hd : s.detector = some d)
    (hok : handleEvent fl sens proc s p (.audioChunk audio ts) = .ok r) :
    r.outputs = r.frames.filterMap
      (fun f => if 0 ≤ proc d.porcupine.id (unpackInt16 f)
        then some (.detection s.keyword_name ts) else none) := by
  rw [handleEvent_chunk_some fl sens proc s p d audio ts hd] at hok
  obtain ⟨-, -, -, -, houts, -⟩ := drain_spec s.bytes_per_chunk
    (proc d.porcupine.id) s.keyword_name ts (s.audio_buffer ++ audio) s.detected
  simp only [Except.ok.injEq] at hok
  subst hok
  exact houts

/-- C3 witness: the amended statement applied to a one-frame delivery
whose frame matches. -/
theorem c3_detection_per_matching_frame_witness :
    ([OutEvent.detection "hello" 5] : List OutEvent) =
      ([[1, 2, 3, 4]] : List (List Nat)).filterMap
        (fun f => if 0 ≤ (fun _ _ => (0 : Int))
            ((⟨⟨0, 2⟩, 1/2⟩ : Detector).porcupine.id) (unpackInt16 f)
          then some (.detection "hello" 5) else none) :=
  c3_detection_per_matching_frame 2 (1/2) (fun _ _ => (0 : Int))
    ⟨[], false, some ⟨⟨0, 2⟩, 1/2⟩, "hello", "2h", 4⟩
    ⟨[("hello", ⟨"en", "hello"⟩)], [], 1⟩ [1, 2, 3, 4] 5 ⟨⟨0, 2⟩, 1/2⟩
    ⟨⟨[], true, some ⟨⟨0, 2⟩, 1/2⟩, "hello", "2h", 4⟩,
      ⟨[("hello", ⟨"en", "hello"⟩)], [], 1⟩,
      [.detection "hello" 5], [[1, 2, 3, 4]], true⟩
    rfl
    (by simp [handleEvent, drain, unpackInt16, Event.type, Describe.is_type,
      Detect.is_type, AudioStart.is_type, AudioChunk.is_type,
      AudioStop.is_type])

/-- C8 counterexample: the closest realizable form of "the terminating
signal is bundled with the delivery that produced the match" — the
utterance-end event arrives in the same batch, immediately after the
chunk whose FIRST frame matches.  Processing does not stop at the
match: both buffered frames are fed to the engine (and both produce
detection events) before the stop is handled. -/
theorem c8_counterexample :
    (runEvents 2 (1/2) (fun _ _ => 0)
        ⟨[], false, some ⟨⟨0, 2⟩, 1/2⟩, "hello", "2h", 4⟩
        ⟨[("hello", ⟨"en", "hello"⟩)], [], 1⟩
        [.audioChunk [1, 2, 3, 4, 5, 6, 7, 8] 5, .audioStop]).map
      (fun r => r.frames) = .ok [[1, 2, 3, 4], [5, 6, 7, 8]] := by
  simp [runEvents, handleEvent, drain, unpackInt16, Event.type,
    Describe.is_type, Detect.is_type, AudioStart.is_type, AudioChunk.is_type,
    AudioStop.is_type, Except.map]

/-- C8 (amended): the early-return guard is dead code — the loop tests
`AudioStop.is_type(event.type)` on the audio-chunk event itself, which
is never the terminating signal, so a delivery that produces a match is
still drained to the end: every complete buffered frame is fed to the
engine and fewer than one frame length of bytes remain. -/
theorem c8_no_early_stop (fl : Nat) (sens : ℚ) (proc : Nat → List Int → Int)
    (s : Session) (p : PoolState) (audio : List Nat) (ts : Int) (d : Detector)
    (r : HandleResult)
    (hd : s.detector = some d)
    (hok : handleEvent fl sens proc s p (.audioChunk audio ts) = .ok r) :
    AudioStop.is_type (Event.audioChunk audio ts).type = false ∧
    r.frames.flatten ++ r.session.audio_buffer = s.audio_buffer ++ audio ∧
    (0 < s.bytes_per_chunk →
      r.session.audio_buffer.length < s.bytes_per_chunk) := by
  rw [handleEvent_chunk_some fl sens proc s p d audio ts hd] at hok
  obtain ⟨-, hflat, -, hrem, -, -⟩ := drain_spec s.bytes_per_chunk
    (proc d.porcupine.id) s.keyword_name ts (s.audio_buffer ++ audio) s.detected
  simp only [Except.ok.injEq] at hok
  subst hok
  exact ⟨rfl, hflat, hrem⟩

/-- C8 witness: the amended statement applied to a delivery whose first
(and only complete) frame matches, with one byte left over. -/
theorem c8_no_early_stop_witness :
    AudioStop.is_type (Event.audioChunk [1, 2, 3, 4, 5] 7).type = false ∧
    ([[1, 2, 3, 4]] : List (List Nat)).flatten ++ [5] =
      ([] : List Nat) ++ [1, 2, 3, 4, 5] ∧
    (0 < 4 → ([5] : List Nat).length < 4) :=
  c8_no_early_stop 2 (1/2) (fun _ _ => (0 : Int))
    ⟨[], false, some ⟨⟨0, 2⟩, 1/2⟩, "hello", "2h", 4⟩
    ⟨[("hello", ⟨"en", "hello"⟩)], [], 1⟩ [1, 2, 3, 4, 5] 7 ⟨⟨0, 2⟩, 1/2⟩
    ⟨⟨[5], true, some ⟨⟨0, 2⟩, 1/2⟩, "hello", "2h", 4⟩,
      ⟨[("hello", ⟨"en", "hello"⟩)], [], 1⟩,
      [.detection "hello" 7], [[1, 2, 3, 4]], true⟩
    rfl
    (by simp [handleEvent, drain, unpackInt16, Event.type, Describe.is_type,
      Detect.is_type, AudioStart.is_type, AudioChunk.is_type,
      AudioStop.is_type])

/-- C1: over any sequence of audio-chunk deliveries processed under one
active keyword with frame length `L = bytes_per_chunk > 0` bytes and an
initially empty session buffer, the reassembly loop feeds exactly
`total / L` complete frames to the engine, each exactly `L` bytes, in
original byte order (their concatenation followed by the leftover
buffer is the delivered byte stream), and exactly `total mod L` bytes
remain in the session's audio buffer afterwards. -/
theorem c1_frame_reassembly (fl : Nat) (sens : ℚ)
    (proc : Nat → List Int → Int) (cs : List Event) (s : Session)
    (p : PoolState) (d : Detector) (r : HandleResult)
    (hcs : ∀ e ∈ cs, ∃ a t, e = Event.audioChunk a t)
    (hd : s.detector = some d)
    (hbuf0 : s.audio_buffer = [])
    (hL : 0 < s.bytes_per_chunk)
    (hok : runEvents fl sens proc s p cs = .ok r) :
    r.frames.length =
      (cs.map chunkPayload).flatten.length / s.bytes_per_chunk ∧
    (∀ f ∈ r.frames, f.length = s.bytes_per_chunk) ∧
    r.frames.flatten ++ r.session.audio_buffer = (cs.map chunkPayload).flatten ∧
    r.session.audio_buffer.length =
      (cs.map chunkPayload).flatten.length % s.bytes_per_chunk := by
  obtain ⟨-, -, hflat, hlen, hrem⟩ := runChunks_frames fl sens proc cs s p d r
    hcs hd (fun _ => by rw [hbuf0]; exact hL) hok
  rw [hbuf0, List.nil_append] at hflat
  have hrem' := hrem hL
  have hlenflat : r.frames.flatten.length = r.frames.length * s.bytes_per_chunk :=
    flatten_length_const _ _ hlen
  have htot : r.frames.length * s.bytes_per_chunk +
      r.session.audio_buffer.length = (cs.map chunkPayload).flatten.length := by
    rw [← hlenflat, ← List.length_append, hflat]
  refine ⟨?_, hlen, hflat, ?_⟩
  · rw [← htot, Nat.mul_comm, Nat.mul_add_div hL,
      Nat.div_eq_of_lt hrem', Nat.add_zero]
  · rw [← htot, Nat.mul_comm, Nat.mul_add_mod, Nat.mod_eq_of_lt hrem']

/-- C1 witness: two deliveries of 5 bytes each under frame length 4:
two frames are fed, in order, and 2 = 10 mod 4 bytes remain. -/
theorem c1_frame_reassembly_witness :
    (⟨⟨[9, 10], false, some ⟨⟨0, 2⟩, 1/2⟩, "hello", "2h", 4⟩,
        ⟨[("hello", ⟨"en", "hello"⟩)], [], 1⟩,
        [], [[1, 2, 3, 4], [5, 6, 7, 8]], true⟩ : HandleResult).frames.length =
      (([Event.audioChunk [1, 2, 3, 4, 5] 7,
          Event.audioChunk [6, 7, 8, 9, 10] 8].map chunkPayload).flatten.length) / 4 :=
  (c1_frame_reassembly 2 (1/2) (fun _ _ => (-1 : Int))
    [Event.audioChunk [1, 2, 3, 4, 5] 7, Event.audioChunk [6, 7, 8, 9, 10] 8]
    ⟨[], false, some ⟨⟨0, 2⟩, 1/2⟩, "hello", "2h", 4⟩
    ⟨[("hello", ⟨"en", "hello"⟩)], [], 1⟩ ⟨⟨0, 2⟩, 1/2⟩
    ⟨⟨[9, 10], false, some ⟨⟨0, 2⟩, 1/2⟩, "hello", "2h", 4⟩,
      ⟨[("hello", ⟨"en", "hello"⟩)], [], 1⟩,
      [], [[1, 2, 3, 4], [5, 6, 7, 8]], true⟩
    (by
      intro e he
      rcases List.mem_cons.mp he with rfl | he
      · exact ⟨_, _, rfl⟩
      rcases List.mem_cons.mp he with rfl | he
      · exact ⟨_, _, rfl⟩
      exact absurd he (List.not_mem_nil e))
    rfl rfl (by norm_num)
    (by simp [runEvents, handleEvent, drain, unpackInt16, Event.type,
      Describe.is_type, Detect.is_type, AudioStart.is_type, AudioChunk.is_type,
      AudioStop.is_type])).1


/-- C5: over one utterance (utterance-start, any audio-chunk
deliveries, utterance-end), the no-detection event is written exactly
once if no detection event was written during the utterance and not at
all otherwise — regardless of whether a keyword was ever loaded. -/
theorem c5_not_detected_iff_no_match (fl : Nat) (sens : ℚ)
    (proc : Nat → List Int → Int) (cs : List Event) (s : Session)
    (p : PoolState) (r : HandleResult)
    (hcs : ∀ e ∈ cs, ∃ a t, e = Event.audioChunk a t)
    (hok : runEvents fl sens proc s p
      (Event.audioStart :: cs ++ [Event.audioStop]) = .ok r) :
    r.outputs.count OutEvent.notDetected =
      (if r.outputs.any OutEvent.isDetection then 0 else 1) := by
  simp only [runEvents, handleEvent_audioStart, List.append_eq] at hok
  rw [runEvents_append] at hok
  rcases h1 : runEvents fl sens proc { s with detected := false } p cs
      with e | r1
  · simp only [h1] at hok
    cases hok
  · simp only [h1, runEvents, handleEvent_audioStop] at hok
    simp only [Except.ok.injEq] at hok
    subst hok
    obtain ⟨hall, hdet⟩ := runChunks_outputs fl sens proc cs
      { s with detected := false } p r1 hcs h1
    simp only [Bool.false_or] at hdet
    dsimp only
    rcases houts : r1.outputs with _ | ⟨o, os⟩
    · rw [houts] at hdet
      simp at hdet
      simp [hdet, OutEvent.isDetection]
    · rw [houts] at hdet
      simp at hdet
      rw [houts] at hall
      have hanytrue : (o :: os).any OutEvent.isDetection = true := by
        simp only [List.any_cons, Bool.or_eq_true]
        exact Or.inl (hall o (List.mem_cons_self o os))
      simp [hdet, hanytrue]
      rw [List.count_eq_zero]
      intro hmem
      have hdetn := hall _ hmem
      simp [OutEvent.isDetection] at hdetn


/-- C5 witness: an utterance with no audio at all and no keyword ever
loaded still gets exactly one no-detection event. -/
theorem c5_not_detected_iff_no_match_witness :
    ([OutEvent.notDetected] : List OutEvent).count OutEvent.notDetected =
      (if ([OutEvent.notDetected] : List OutEvent).any OutEvent.isDetection
        then 0 else 1) :=
  c5_not_detected_iff_no_match 2 (1/2) (fun _ _ => (0 : Int)) [] initSession
    ⟨[], [], 0⟩
    ⟨initSession, ⟨[], [], 0⟩, [OutEvent.notDetected], [], true⟩
    (fun e he => absurd he (List.not_mem_nil e))
    (by simp [runEvents, handleEvent_audioStart, handleEvent_audioStop,
      initSession])

end Porcupine3
